import Mathlib

/-
Verification of the s2geometry edge-crossing predicate core.

The repository ships the test file `src/s2/s2edge_crosser_test.cc`; the
implementation files (`s2edge_crossings`, `s2edge_crosser`, `s2pred::Sign`)
are not part of the source tree, so the definitions below are modelled from
the specification (spec.md), with the shipped test file used as the
authority wherever it pins down concrete behavior.  Points are modelled
with exact rational coordinates: the spec requires the escalating-precision
Sign evaluation to be exact, so an exact-arithmetic model computes the same
signs the three-tier evaluator is specified to produce.
-/

namespace S2

/-- Modelled from the spec: the `S2Point` 3-component vector type (spec §3).
The implementation file defining S2Point is not in the source tree.  Every
floating-point coordinate is a dyadic rational, and every predicate of this
core (Sign, CrossingSign, EdgeOrVertexCrossing) is invariant under scaling
a point by a positive factor, so each input point is modelled by a
positively scaled exact integer vector; the spec requires the sign
computations to be exact, which integer arithmetic is. -/
structure Point where
  x : ℤ
  y : ℤ
  z : ℤ
deriving DecidableEq

/-- Modelled from the spec: the scalar triple product `a . (b x c)` whose
sign the Exact Sign Kernel reports (spec §4.1). -/
def det (a b c : Point) : ℤ :=
  a.x * (b.y * c.z - b.z * c.y) - a.y * (b.x * c.z - b.z * c.x)
    + a.z * (b.x * c.y - b.y * c.x)

/-- Modelled from the spec: a strict lexicographic total order over point
values, the "consistent lexicographic tie-break" the spec suggests for the
symbolic perturbation rule (spec §4.1, §9). -/
def lexLt (p q : Point) : Prop :=
  p.x < q.x ∨ (p.x = q.x ∧ (p.y < q.y ∨ (p.y = q.y ∧ p.z < q.z)))

instance (p q : Point) : Decidable (lexLt p q) := by
  unfold lexLt; infer_instance

/-- Modelled from the spec: the comparison sign of two points under the
lexicographic tie-break order (spec §9, "Deterministic symbolic
perturbation"). -/
def pairSgn (p q : Point) : ℤ :=
  if lexLt p q then 1 else -1

/-- Modelled from the spec: the symbolic-perturbation sign for an exactly
degenerate triple (spec §4.1, §9): zero when two of the three points
coincide, otherwise the sign of the permutation that sorts the triple in
the lexicographic order, which is antisymmetric under swaps and invariant
under cyclic rotation. -/
def symb (a b c : Point) : ℤ :=
  if a = b ∨ b = c ∨ a = c then 0
  else pairSgn a b * pairSgn a c * pairSgn b c

/-- Modelled from the spec: the Exact Sign Kernel `Sign(a,b,c)` (spec §4.1):
the sign of the triple product when it is nonzero (the escalating-precision
tiers are specified to compute exactly this), and the symbolic-perturbation
sign on exactly degenerate triples. -/
def sign (a b c : Point) : ℤ :=
  if 0 < det a b c then 1
  else if det a b c < 0 then -1
  else symb a b c

/-- Modelled from the spec: the Crossing Classifier `CrossingSign(a,b,c,d)`
(spec §4.2), returning +1 (DoesCross), 0 (MaybeCross) or -1 (DoesNotCross).
The shared-endpoint test is performed before the degenerate-edge test: the
shipped test file (s2edge_crosser_test.cc line 35 together with the
shared-vertex suite at lines 122-125, where `TestCrossings` also exercises
the degenerate edge (a,a) against an edge ending at a) requires
`CrossingSign(a,a,c,a) == 0`, so a shared endpoint wins over a degenerate
edge, matching the spec's shared-vertex forcing law (§8) which applies
"regardless".  In the general case the four Sign evaluations of §4.2 step 3
must give one consistent orientation around the quadrilateral; requiring
all four to agree is what rejects the antipodal pseudo-crossing of §4.2
step 5. -/
def crossingSign (a b c d : Point) : ℤ :=
  if a = c ∨ a = d ∨ b = c ∨ b = d then 0
  else if a = b ∨ c = d then -1
  else if -sign a b c = sign a b d ∧ sign a b d = -sign c d b
          ∧ -sign c d b = sign c d a then 1
  else -1

/-- Modelled from the spec: the cross product of two 3-vectors, a helper the
Vertex/Boundary Crossing Refiner needs for its fixed reference direction
(spec §4.3); the implementation is not in the source tree. -/
def crossProd (u v : Point) : Point :=
  ⟨u.y * v.z - u.z * v.y, u.z * v.x - u.x * v.z, u.x * v.y - u.y * v.x⟩

/-- Modelled from the spec: the index of the component of largest absolute
value (0, 1 or 2), with ties resolved toward the later index, used to pick a
reference direction not parallel to the input. -/
def largestAbsComponent (a : Point) : ℕ :=
  if |a.y| < |a.x| then (if |a.z| < |a.x| then 0 else 2)
  else (if |a.z| < |a.y| then 1 else 2)

/-- Modelled from the spec: the component index whose entry of the reference
vector is set to 1 (the predecessor of the largest component, wrapping from
0 to 2). -/
def orthoK (a : Point) : ℕ :=
  match largestAbsComponent a with
  | 0 => 2
  | Nat.succ n => n

/-- Modelled from the spec: the fixed generic reference vector with its
largest entry in component `k`, no component zero and no two components
equal, chosen so it is never parallel to an input point; scaled by a
positive factor to integer coordinates, which never changes a Sign decided
by its determinant. -/
def tempVec (k : ℕ) : Point :=
  ⟨if k = 0 then 100000 else 1200,
   if k = 1 then 100000 else 530,
   if k = 2 then 100000 else 457⟩

/-- Modelled from the spec: the fixed reference direction orthogonal to `a`
used by the vertex-crossing tie-break (spec §4.3).  The real code
normalizes this vector; normalization scales by a positive factor, which
never changes any Sign that is decided by its determinant, so the
unnormalized vector is used here. -/
def ortho (a : Point) : Point := crossProd a (tempVec (orthoK a))

/-- Modelled from the spec: the OrderedCCW predicate: (a,b,c) appear in
counterclockwise order around `o` (at least two of the three cyclic
orientation tests agree), the "fixed orientation rule built on the same
Sign Kernel" of spec §4.3. -/
def orderedCCW (a b c o : Point) : Bool :=
  decide (2 ≤ ((if 0 ≤ sign b o a then 1 else 0)
    + (if 0 ≤ sign c o b then 1 else 0)
    + (if 0 < sign a o c then 1 else 0) : ℤ))

/-- Modelled from the spec: the Vertex/Boundary Crossing Refiner's
resolution of the touching case (spec §4.3): for edges that share at least
one vertex, whether the crossing counts as a boundary crossing, decided by
whether edge AB is further counterclockwise around the shared vertex than
edge CD relative to the fixed `ortho` reference direction.  Degenerate
edges never count; identical (or reversed-identical) edge pairs always
count. -/
def vertexCrossing (a b c d : Point) : Bool :=
  if a = b ∨ c = d then false
  else if a = c then decide (b = d) || orderedCCW (ortho a) d b a
  else if b = d then orderedCCW (ortho b) c a b
  else if a = d then decide (b = c) || orderedCCW (ortho a) c b a
  else if b = c then orderedCCW (ortho b) d a b
  else false

/-- Modelled from the spec: the Vertex/Boundary Crossing Refiner
`EdgeOrVertexCrossing(a,b,c,d)` (spec §4.3): the classifier result when it
is unambiguous, and the vertex-crossing tie-break when it is MaybeCross. -/
def edgeOrVertexCrossing (a b c d : Point) : Bool :=
  if 0 < crossingSign a b c d then true
  else if crossingSign a b c d < 0 then false
  else vertexCrossing a b c d

/-- Modelled from the spec: the antipode of a point (spec §4.2 step 5,
glossary), the point diametrically opposite on the sphere. -/
def neg (p : Point) : Point := ⟨-p.x, -p.y, -p.z⟩

/-- Modelled from the spec: the Incremental Edge Crosser state (spec §3
"Crosser State", §4.4): the current reference edge (a,b), the pending
query-chain point of the previous call (`none` right after Init), and the
cached sign `acb` of the reference origin relative to that pending point.
The reference-holding S2EdgeCrosser and the value-owning
S2CopyingEdgeCrosser are specified to have identical semantics (spec §4.4)
and differ only in point ownership, which a value model cannot distinguish,
so one state type models both flavors. -/
structure CrosserState where
  a : Point
  b : Point
  c : Option Point
  acb : ℤ
deriving DecidableEq

/-- Modelled from the spec: `Init(origin, destination)` (spec §4.4): sets
the reference edge and clears the cached comparison state. -/
def initEdge (a b : Point) : CrosserState := ⟨a, b, none, 0⟩

/-- Modelled from the spec: `RestartAt(p)` (spec §4.4).  The spec's §4.4
wording describes RestartAt as replacing the edge origin, but the shipped
test (s2edge_crosser_test.cc lines 53-57 and 73-77: after `Init(c,d);
RestartAt(a)` the calls `CrossingSign(b)` and `CrossingSign(a)` must equal
the free-function results for edge pair (c,d),(a,b)) is only satisfiable
when RestartAt records `p` as the pending query-chain point, recomputes the
cached sign for it, and leaves the reference edge unchanged; this model
follows the test. -/
def restartAt (s : CrosserState) (p : Point) : CrosserState :=
  ⟨s.a, s.b, some p, -sign s.a s.b p⟩

/-- Modelled from the spec: the three-point constructor used by the test
(s2edge_crosser_test.cc lines 40 and 60), equivalent to `Init(a,b)`
followed by `RestartAt(c)`. -/
def initCrosser (a b c : Point) : CrosserState := restartAt (initEdge a b) c

/-- Modelled from the spec: the one-point incremental `CrossingSign(d)`
(spec §4.4): when the cached sign already shows the pending point and `d`
on the same side of the reference great circle (the common fast path), the
edges cannot cross and no further Sign evaluation is needed; otherwise the
full classifier runs.  Either way `d` becomes the pending point and its
sign is cached.  Calling with no pending point is a caller contract
violation (spec §7), modelled by the out-of-band result -2 with the state
unchanged. -/
def crossingSignD (s : CrosserState) (d : Point) : ℤ × CrosserState :=
  match s.c with
  | none => (-2, s)
  | some c =>
    if s.acb = -sign s.a s.b d ∧ sign s.a s.b d ≠ 0
    then (-1, ⟨s.a, s.b, some d, -sign s.a s.b d⟩)
    else (crossingSign s.a s.b c d, ⟨s.a, s.b, some d, -sign s.a s.b d⟩)

/-- Modelled from the spec: the two-point incremental `CrossingSign(c,d)`
(spec §4.4): reuses the cache when `c` is already the pending point and
otherwise restarts the chain at `c` first. -/
def crossingSignCD (s : CrosserState) (c d : Point) : ℤ × CrosserState :=
  if s.c = some c then crossingSignD s d
  else crossingSignD (restartAt s c) d

/-- Modelled from the spec: the one-point incremental
`EdgeOrVertexCrossing(d)` (spec §4.4), the incremental counterpart of the
refiner with the same caching discipline. -/
def edgeOrVertexCrossingD (s : CrosserState) (d : Point) : Bool × CrosserState :=
  match s.c with
  | none => (false, s)
  | some c =>
    (if 0 < (crossingSignD s d).1 then true
     else if (crossingSignD s d).1 < 0 then false
     else vertexCrossing s.a s.b c d,
     (crossingSignD s d).2)

/-- Modelled from the spec: the two-point incremental
`EdgeOrVertexCrossing(c,d)` (spec §4.4). -/
def edgeOrVertexCrossingCD (s : CrosserState) (c d : Point) :
    Bool × CrosserState :=
  if s.c = some c then edgeOrVertexCrossingD s d
  else edgeOrVertexCrossingD (restartAt s c) d

/-- Running a sequence of one-point CrossingSign queries through the
incremental crosser, collecting the results. -/
def runCrossingSigns (s : CrosserState) : List Point → List ℤ
  | [] => []
  | d :: ds =>
    (crossingSignD s d).1 :: runCrossingSigns (crossingSignD s d).2 ds

/-- The free-function results for the same chained queries: each query `d`
is tested as edge (previous point, d) against the reference edge. -/
def chainCrossingSigns (a b c : Point) : List Point → List ℤ
  | [] => []
  | d :: ds => crossingSign a b c d :: chainCrossingSigns a b d ds

/-- Running a sequence of one-point EdgeOrVertexCrossing queries through
the incremental crosser. -/
def runEdgeOrVertexCrossings (s : CrosserState) : List Point → List Bool
  | [] => []
  | d :: ds =>
    (edgeOrVertexCrossingD s d).1
      :: runEdgeOrVertexCrossings (edgeOrVertexCrossingD s d).2 ds

/-- The free-function results for the same chained
EdgeOrVertexCrossing queries. -/
def chainEdgeOrVertexCrossings (a b c : Point) : List Point → List Bool
  | [] => []
  | d :: ds =>
    edgeOrVertexCrossing a b c d :: chainEdgeOrVertexCrossings a b d ds

/-- Running a sequence of two-point CrossingSign queries through the
incremental crosser. -/
def runCrossingSignPairs (s : CrosserState) :
    List (Point × Point) → List ℤ
  | [] => []
  | p :: ps =>
    (crossingSignCD s p.1 p.2).1
      :: runCrossingSignPairs (crossingSignCD s p.1 p.2).2 ps

/-- Running a sequence of two-point EdgeOrVertexCrossing queries through
the incremental crosser. -/
def runEdgeOrVertexCrossingPairs (s : CrosserState) :
    List (Point × Point) → List Bool
  | [] => []
  | p :: ps =>
    (edgeOrVertexCrossingCD s p.1 p.2).1
      :: runEdgeOrVertexCrossingPairs (edgeOrVertexCrossingCD s p.1 p.2).2 ps

theorem lexLt_irrefl (p : Point) : ¬ lexLt p p := by
  unfold lexLt; intro h
  rcases h with h | ⟨_, h | ⟨_, h⟩⟩ <;> exact lt_irrefl _ h

theorem lexLt_asymm {p q : Point} (h : lexLt p q) : ¬ lexLt q p := by
  unfold lexLt at *
  rcases h with h | ⟨e1, h | ⟨e2, h⟩⟩ <;>
    rintro (h' | ⟨e1', h' | ⟨e2', h'⟩⟩) <;> linarith

theorem lexLt_total {p q : Point} (h : p ≠ q) : lexLt p q ∨ lexLt q p := by
  unfold lexLt
  rcases lt_trichotomy p.x q.x with hx | hx | hx
  · exact Or.inl (Or.inl hx)
  · rcases lt_trichotomy p.y q.y with hy | hy | hy
    · exact Or.inl (Or.inr ⟨hx, Or.inl hy⟩)
    · rcases lt_trichotomy p.z q.z with hz | hz | hz
      · exact Or.inl (Or.inr ⟨hx, Or.inr ⟨hy, hz⟩⟩)
      · exact absurd (by cases p; cases q; simp_all) h
      · exact Or.inr (Or.inr ⟨hx.symm, Or.inr ⟨hy.symm, hz⟩⟩)
    · exact Or.inr (Or.inr ⟨hx.symm, Or.inl hy⟩)
  · exact Or.inr (Or.inl hx)

theorem pairSgn_swap {p q : Point} (h : p ≠ q) : pairSgn q p = -pairSgn p q := by
  unfold pairSgn
  rcases lexLt_total h with hl | hl
  · rw [if_neg (lexLt_asymm hl), if_pos hl]
  · rw [if_pos hl, if_neg (lexLt_asymm hl)]; norm_num

theorem pairSgn_cases (p q : Point) : pairSgn p q = 1 ∨ pairSgn p q = -1 := by
  unfold pairSgn; split_ifs <;> simp

theorem symb_swap12 (a b c : Point) : symb b a c = -symb a b c := by
  unfold symb
  by_cases h : a = b ∨ b = c ∨ a = c
  · have h' : b = a ∨ a = c ∨ b = c := by tauto
    rw [if_pos h, if_pos h']; ring
  · have h' : ¬ (b = a ∨ a = c ∨ b = c) := by tauto
    rw [if_neg h, if_neg h']
    push_neg at h
    rw [pairSgn_swap h.1]
    ring

theorem symb_swap23 (a b c : Point) : symb a c b = -symb a b c := by
  unfold symb
  by_cases h : a = b ∨ b = c ∨ a = c
  · have h' : a = c ∨ c = b ∨ a = b := by tauto
    rw [if_pos h, if_pos h']; ring
  · have h' : ¬ (a = c ∨ c = b ∨ a = b) := by tauto
    rw [if_neg h, if_neg h']
    push_neg at h
    rw [pairSgn_swap h.2.1]
    ring

theorem symb_swap13 (a b c : Point) : symb c b a = -symb a b c := by
  unfold symb
  by_cases h : a = b ∨ b = c ∨ a = c
  · have h' : c = b ∨ b = a ∨ c = a := by tauto
    rw [if_pos h, if_pos h']; ring
  · have h' : ¬ (c = b ∨ b = a ∨ c = a) := by tauto
    rw [if_neg h, if_neg h']
    push_neg at h
    rw [pairSgn_swap h.2.2, pairSgn_swap h.1, pairSgn_swap h.2.1]
    ring

theorem det_swap12 (a b c : Point) : det b a c = -det a b c := by
  unfold det; ring

theorem det_swap23 (a b c : Point) : det a c b = -det a b c := by
  unfold det; ring

theorem det_swap13 (a b c : Point) : det c b a = -det a b c := by
  unfold det; ring

theorem sign_swap12 (a b c : Point) : sign b a c = -sign a b c := by
  unfold sign
  rw [det_swap12, symb_swap12]
  rcases lt_trichotomy (det a b c) 0 with h | h | h <;>
    split_ifs <;> first | rfl | linarith

theorem sign_swap23 (a b c : Point) : sign a c b = -sign a b c := by
  unfold sign
  rw [det_swap23, symb_swap23]
  rcases lt_trichotomy (det a b c) 0 with h | h | h <;>
    split_ifs <;> first | rfl | linarith

theorem sign_swap13 (a b c : Point) : sign c b a = -sign a b c := by
  unfold sign
  rw [det_swap13, symb_swap13]
  rcases lt_trichotomy (det a b c) 0 with h | h | h <;>
    split_ifs <;> first | rfl | linarith

theorem sign_cyc1 (a b c : Point) : sign b c a = sign a b c := by
  have h1 := sign_swap12 b c a
  have h2 := sign_swap13 c b a
  omega

theorem sign_cyc2 (a b c : Point) : sign c a b = sign a b c := by
  have h1 := sign_cyc1 b c a
  have h2 := sign_cyc1 a b c
  omega

theorem symb_cases (a b c : Point) :
    symb a b c = -1 ∨ symb a b c = 0 ∨ symb a b c = 1 := by
  unfold symb
  split_ifs with h
  · simp
  · rcases pairSgn_cases a b with h1 | h1 <;>
      rcases pairSgn_cases a c with h2 | h2 <;>
      rcases pairSgn_cases b c with h3 | h3 <;>
      rw [h1, h2, h3] <;> norm_num

theorem sign_cases (a b c : Point) :
    sign a b c = -1 ∨ sign a b c = 0 ∨ sign a b c = 1 := by
  unfold sign
  split_ifs <;> first | simp | exact symb_cases a b c

theorem sign_ne_zero {a b c : Point} (hab : a ≠ b) (hbc : b ≠ c)
    (hac : a ≠ c) : sign a b c ≠ 0 := by
  unfold sign
  split_ifs with h1 h2
  · norm_num
  · norm_num
  · unfold symb
    rw [if_neg (by tauto)]
    rcases pairSgn_cases a b with h1 | h1 <;>
      rcases pairSgn_cases a c with h2 | h2 <;>
      rcases pairSgn_cases b c with h3 | h3 <;>
      rw [h1, h2, h3] <;> norm_num

theorem det_degen_left (a c : Point) : det a a c = 0 := by unfold det; ring

theorem det_degen_right (a b : Point) : det a b b = 0 := by unfold det; ring

theorem det_degen_outer (a b : Point) : det a b a = 0 := by unfold det; ring

theorem sign_degen_left (a c : Point) : sign a a c = 0 := by
  unfold sign
  rw [det_degen_left]
  norm_num
  unfold symb
  rw [if_pos (Or.inl rfl)]

theorem sign_degen_right (a b : Point) : sign a b b = 0 := by
  unfold sign
  rw [det_degen_right]
  norm_num
  unfold symb
  rw [if_pos (Or.inr (Or.inl rfl))]

theorem sign_degen_outer (a b : Point) : sign a b a = 0 := by
  unfold sign
  rw [det_degen_outer]
  norm_num
  unfold symb
  rw [if_pos (Or.inr (Or.inr rfl))]

theorem sign_det_pos_or_neg {a b c : Point} (h : det a b c ≠ 0) :
    sign a b c = 1 ∨ sign a b c = -1 := by
  unfold sign
  rcases h.lt_or_lt with h' | h'
  · rw [if_neg (by linarith), if_pos h']; simp
  · rw [if_pos h']; simp

theorem crossingSign_shared {a b c d : Point}
    (h : a = c ∨ a = d ∨ b = c ∨ b = d) : crossingSign a b c d = 0 := by
  unfold crossingSign
  rw [if_pos h]

theorem crossingSign_cases (a b c d : Point) :
    crossingSign a b c d = -1 ∨ crossingSign a b c d = 0
      ∨ crossingSign a b c d = 1 := by
  unfold crossingSign
  split_ifs <;> simp

theorem crossingSign_not_shared_ne_zero {a b c d : Point}
    (h : ¬ (a = c ∨ a = d ∨ b = c ∨ b = d)) : crossingSign a b c d ≠ 0 := by
  unfold crossingSign
  rw [if_neg h]
  split_ifs <;> norm_num

theorem crossingSign_swap_ab (a b c d : Point) :
    crossingSign b a c d = crossingSign a b c d := by
  unfold crossingSign
  by_cases h1 : a = c ∨ a = d ∨ b = c ∨ b = d
  · have h1' : b = c ∨ b = d ∨ a = c ∨ a = d := by tauto
    rw [if_pos h1', if_pos h1]
  · have h1' : ¬ (b = c ∨ b = d ∨ a = c ∨ a = d) := by tauto
    rw [if_neg h1', if_neg h1]
    by_cases h2 : a = b ∨ c = d
    · have h2' : b = a ∨ c = d := by tauto
      rw [if_pos h2', if_pos h2]
    · have h2' : ¬ (b = a ∨ c = d) := by tauto
      rw [if_neg h2', if_neg h2]
      rw [sign_swap12 a b c, sign_swap12 a b d]
      generalize sign a b c = p
      generalize sign a b d = q
      generalize sign c d b = r
      generalize sign c d a = t
      split_ifs <;> omega

theorem crossingSign_swap_cd (a b c d : Point) :
    crossingSign a b d c = crossingSign a b c d := by
  unfold crossingSign
  by_cases h1 : a = c ∨ a = d ∨ b = c ∨ b = d
  · have h1' : a = d ∨ a = c ∨ b = d ∨ b = c := by tauto
    rw [if_pos h1', if_pos h1]
  · have h1' : ¬ (a = d ∨ a = c ∨ b = d ∨ b = c) := by tauto
    rw [if_neg h1', if_neg h1]
    by_cases h2 : a = b ∨ c = d
    · have h2' : a = b ∨ d = c := by
        rcases h2 with h | h
        · exact Or.inl h
        · exact Or.inr h.symm
      rw [if_pos h2', if_pos h2]
    · have h2' : ¬ (a = b ∨ d = c) := by
        rintro (h | h)
        · exact h2 (Or.inl h)
        · exact h2 (Or.inr h.symm)
      rw [if_neg h2', if_neg h2]
      rw [sign_swap12 c d b, sign_swap12 c d a]
      generalize sign a b c = p
      generalize sign a b d = q
      generalize sign c d b = r
      generalize sign c d a = t
      split_ifs <;> omega

theorem crossingSign_swap_edges (a b c d : Point) :
    crossingSign c d a b = crossingSign a b c d := by
  unfold crossingSign
  by_cases h1 : a = c ∨ a = d ∨ b = c ∨ b = d
  · have h1' : c = a ∨ c = b ∨ d = a ∨ d = b := by
      rcases h1 with h | h | h | h
      · exact Or.inl h.symm
      · exact Or.inr (Or.inr (Or.inl h.symm))
      · exact Or.inr (Or.inl h.symm)
      · exact Or.inr (Or.inr (Or.inr h.symm))
    rw [if_pos h1', if_pos h1]
  · have h1' : ¬ (c = a ∨ c = b ∨ d = a ∨ d = b) := by
      rintro (h | h | h | h)
      · exact h1 (Or.inl h.symm)
      · exact h1 (Or.inr (Or.inr (Or.inl h.symm)))
      · exact h1 (Or.inr (Or.inl h.symm))
      · exact h1 (Or.inr (Or.inr (Or.inr h.symm)))
    rw [if_neg h1', if_neg h1]
    by_cases h2 : a = b ∨ c = d
    · have h2' : c = d ∨ a = b := by tauto
      rw [if_pos h2', if_pos h2]
    · have h2' : ¬ (c = d ∨ a = b) := by tauto
      rw [if_neg h2', if_neg h2]
      generalize sign a b c = p
      generalize sign a b d = q
      generalize sign c d b = r
      generalize sign c d a = t
      split_ifs <;> omega

theorem crossingSign_same_side {a b c d : Point}
    (h : sign a b c = sign a b d) (hnz : sign a b d ≠ 0) :
    crossingSign a b c d = -1 := by
  have hac : ¬ a = c := fun e => by
    rw [← e, sign_degen_outer] at h; exact hnz h.symm
  have had : ¬ a = d := fun e => by
    rw [← e, sign_degen_outer] at hnz; exact hnz rfl
  have hbc : ¬ b = c := fun e => by
    rw [← e, sign_degen_right] at h; exact hnz h.symm
  have hbd : ¬ b = d := fun e => by
    rw [← e, sign_degen_right] at hnz; exact hnz rfl
  have hab : ¬ a = b := fun e => by
    rw [e, sign_degen_left] at hnz; exact hnz rfl
  unfold crossingSign
  rw [if_neg (by tauto)]
  by_cases hcd : c = d
  · rw [if_pos (Or.inr hcd)]
  · rw [if_neg (by tauto)]
    rw [if_neg ?_]
    intro hc
    rw [h] at hc
    exact hnz (by linarith [hc.1])

theorem orderedCCW_compl (x y z o : Point) (h : sign z o y ≠ 0) :
    orderedCCW x z y o = !orderedCCW x y z o := by
  unfold orderedCCW
  rw [sign_swap13 x o z, sign_swap13 z o y, sign_swap13 x o y]
  rw [← decide_not, decide_eq_decide]
  revert h
  generalize sign z o y = w
  generalize sign x o y = u
  generalize sign x o z = v
  intro h
  split_ifs <;> omega

theorem vc_swap_ab (a b c d : Point) :
    vertexCrossing b a c d = vertexCrossing a b c d := by
  unfold vertexCrossing
  by_cases hab : a = b
  · rw [if_pos (Or.inl hab.symm), if_pos (Or.inl hab)]
  · by_cases hcd : c = d
    · rw [if_pos (Or.inr hcd), if_pos (Or.inr hcd)]
    · have hba : ¬ b = a := fun e => hab e.symm
      rw [if_neg (not_or_intro hba hcd), if_neg (not_or_intro hab hcd)]
      by_cases hac : a = c
      · by_cases hbd : b = d
        · have hbc : ¬ b = c := fun e => hab (hac.trans e.symm)
          have had : ¬ a = d := fun e => hab (e.trans hbd.symm)
          rw [if_neg hbc, if_neg had, if_pos hbd, if_pos hac]
          simp [hac, hbd]
        · have hbc : ¬ b = c := fun e => hab (hac.trans e.symm)
          have had : ¬ a = d := fun e => hcd (hac.symm.trans e)
          rw [if_neg hbc, if_neg had, if_neg hbd, if_pos hac, if_pos hac]
          simp [hbd]
      · by_cases hbd : b = d
        · have hbc : ¬ b = c := fun e => hcd (e.symm.trans hbd)
          have had : ¬ a = d := fun e => hab (e.trans hbd.symm)
          rw [if_neg hbc, if_neg had, if_pos hbd, if_neg hac, if_pos hbd]
          simp [hac]
        · by_cases had : a = d
          · by_cases hbc : b = c
            · rw [if_pos hbc, if_neg hac, if_neg hbd, if_pos had]
              simp [had, hbc]
            · rw [if_neg hbc, if_pos had, if_neg hac, if_neg hbd, if_pos had]
              simp [hbc]
          · by_cases hbc : b = c
            · rw [if_pos hbc, if_neg hac, if_neg hbd, if_neg had, if_pos hbc]
              simp [had]
            · rw [if_neg hbc, if_neg had, if_neg hbd, if_neg hac, if_neg hac,
                if_neg hbd, if_neg had, if_neg hbc]

theorem vc_swap_cd (a b c d : Point) :
    vertexCrossing a b d c = vertexCrossing a b c d := by
  unfold vertexCrossing
  by_cases hab : a = b
  · rw [if_pos (Or.inl hab), if_pos (Or.inl hab)]
  · by_cases hcd : c = d
    · have hdc : d = c := hcd.symm
      rw [if_pos (Or.inr hdc), if_pos (Or.inr hcd)]
    · have hdc : ¬ d = c := fun e => hcd e.symm
      rw [if_neg (not_or_intro hab hdc), if_neg (not_or_intro hab hcd)]
      by_cases hac : a = c
      · have had : ¬ a = d := fun e => hcd (hac.symm.trans e)
        have hbc : ¬ b = c := fun e => hab (hac.trans e.symm)
        rw [if_neg had, if_neg hbc, if_pos hac, if_pos hac]
      · by_cases hbd : b = d
        · have had : ¬ a = d := fun e => hab (e.trans hbd.symm)
          have hbc : ¬ b = c := fun e => hcd (e.symm.trans hbd)
          rw [if_neg had, if_neg hbc, if_neg hac, if_neg hac, if_pos hbd,
            if_pos hbd]
        · by_cases had : a = d
          · rw [if_pos had, if_neg hac, if_neg hbd, if_pos had]
          · by_cases hbc : b = c
            · rw [if_neg had, if_pos hbc, if_neg hac, if_neg hbd, if_neg had,
                if_pos hbc]
            · rw [if_neg had, if_neg hbc, if_neg hac, if_neg hbd, if_neg hac,
                if_neg hbd, if_neg had, if_neg hbc]

theorem vc_self {a b : Point} (hab : a ≠ b) : vertexCrossing a b a b = true := by
  unfold vertexCrossing
  rw [if_neg (not_or_intro hab hab), if_pos rfl]
  simp

theorem vc_complement {a b c d : Point} (hab : a ≠ b) (hcd : c ≠ d)
    (hsh : a = c ∨ a = d ∨ b = c ∨ b = d)
    (hni : ¬ (a = c ∧ b = d)) (hnr : ¬ (a = d ∧ b = c)) :
    vertexCrossing c d a b = !vertexCrossing a b c d := by
  rcases hsh with hac | had | hbc | hbd
  · subst hac
    have hbd : ¬ b = d := fun e => hni ⟨rfl, e⟩
    have hba : ¬ b = a := fun e => hab e.symm
    have had : ¬ a = d := hcd
    unfold vertexCrossing
    rw [if_neg (not_or_intro had hab), if_pos rfl,
      if_neg (not_or_intro hab had), if_pos rfl]
    rw [decide_eq_false (fun e => hbd e.symm), decide_eq_false hbd]
    simp only [Bool.false_or]
    exact orderedCCW_compl (ortho a) d b a (sign_ne_zero hba had hbd)
  · subst had
    have hbc : ¬ b = c := fun e => hnr ⟨rfl, e⟩
    have hca : ¬ c = a := hcd
    have hac : ¬ a = c := fun e => hca e.symm
    have hba : ¬ b = a := fun e => hab e.symm
    unfold vertexCrossing
    rw [if_neg (not_or_intro hca hab), if_neg hca, if_neg hab,
      if_neg (fun e => hbc e.symm), if_pos rfl,
      if_neg (not_or_intro hab hca), if_neg hac, if_neg hba, if_pos rfl]
    rw [decide_eq_false hbc]
    simp only [Bool.false_or]
    exact orderedCCW_compl (ortho a) c b a (sign_ne_zero hba hac hbc)
  · subst hbc
    have had : ¬ a = d := fun e => hnr ⟨e, rfl⟩
    have hbd : ¬ b = d := hcd
    have hba : ¬ b = a := fun e => hab e.symm
    have hdb : ¬ d = b := fun e => hbd e.symm
    unfold vertexCrossing
    rw [if_neg (not_or_intro hbd hab), if_neg hba, if_neg hdb, if_pos rfl,
      if_neg (not_or_intro hab hbd), if_neg hab, if_neg hbd, if_neg had,
      if_pos rfl]
    rw [decide_eq_false (fun e => had e.symm)]
    simp only [Bool.false_or]
    exact orderedCCW_compl (ortho b) d a b (sign_ne_zero hab hbd had)
  · subst hbd
    have hac : ¬ a = c := fun e => hni ⟨e, rfl⟩
    have hcb : ¬ c = b := hcd
    have hbc : ¬ b = c := fun e => hcb e.symm
    have hca : ¬ c = a := fun e => hac e.symm
    unfold vertexCrossing
    rw [if_neg (not_or_intro hcb hab), if_neg hca, if_pos rfl,
      if_neg (not_or_intro hab hcb), if_neg hac, if_pos rfl]
    exact orderedCCW_compl (ortho b) c a b (sign_ne_zero hab hbc hac)

theorem ev_swap_ab (a b c d : Point) :
    edgeOrVertexCrossing b a c d = edgeOrVertexCrossing a b c d := by
  unfold edgeOrVertexCrossing
  rw [crossingSign_swap_ab, vc_swap_ab]

theorem ev_swap_cd (a b c d : Point) :
    edgeOrVertexCrossing a b d c = edgeOrVertexCrossing a b c d := by
  unfold edgeOrVertexCrossing
  rw [crossingSign_swap_cd, vc_swap_cd]

theorem neg_inj {p q : Point} (h : neg p = neg q) : p = q := by
  cases p; cases q
  simp only [neg, Point.mk.injEq] at h ⊢
  obtain ⟨h1, h2, h3⟩ := h
  exact ⟨by linarith, by linarith, by linarith⟩

theorem det_neg3 (a b c : Point) : det a b (neg c) = -det a b c := by
  simp only [det, neg]
  ring

theorem det_neg12 (c d x : Point) : det (neg c) (neg d) x = det c d x := by
  simp only [det, neg]
  ring

theorem sign_neg3 {a b c : Point} (h : det a b c ≠ 0) :
    sign a b (neg c) = -sign a b c := by
  unfold sign
  rw [det_neg3]
  rcases h.lt_or_lt with h' | h'
  · rw [if_pos (by linarith), if_neg (by linarith), if_pos h']
    norm_num
  · rw [if_neg (by linarith), if_pos (by linarith), if_pos h']

theorem sign_neg12 {c d x : Point} (h : det c d x ≠ 0) :
    sign (neg c) (neg d) x = sign c d x := by
  unfold sign
  rw [det_neg12]
  rcases h.lt_or_lt with h' | h'
  · rw [if_neg (by linarith), if_pos h', if_neg (by linarith), if_pos h']
  · rw [if_pos h', if_pos h']

theorem crossingSign_antipodal {a b c d : Point}
    (hab : a ≠ b) (hcd : c ≠ d)
    (hd1 : det a b c ≠ 0) (hd2 : det a b d ≠ 0)
    (hd3 : det c d a ≠ 0) (hd4 : det c d b ≠ 0)
    (hsh : ¬ (a = neg c ∨ a = neg d ∨ b = neg c ∨ b = neg d))
    (hcross : crossingSign a b (neg c) (neg d) = 1) :
    crossingSign a b c d = -1 ∧ edgeOrVertexCrossing a b c d = false := by
  have hac : a ≠ c := fun e => hd1 (by rw [e]; exact det_degen_outer c b)
  have hbc : b ≠ c := fun e => hd1 (by rw [e]; exact det_degen_right a c)
  have had : a ≠ d := fun e => hd2 (by rw [e]; exact det_degen_outer d b)
  have hbd : b ≠ d := fun e => hd2 (by rw [e]; exact det_degen_right a d)
  have hncd : neg c ≠ neg d := fun e => hcd (neg_inj e)
  unfold crossingSign at hcross
  rw [if_neg hsh, if_neg (not_or_intro hab hncd)] at hcross
  rw [sign_neg3 hd1, sign_neg3 hd2, sign_neg12 hd4, sign_neg12 hd3] at hcross
  split_ifs at hcross with hC
  · have hm1 : crossingSign a b c d = -1 := by
      unfold crossingSign
      rw [if_neg (by tauto), if_neg (not_or_intro hab hcd), if_neg ?_]
      intro hO
      rcases sign_det_pos_or_neg hd4 with h6 | h6 <;>
        linarith [hC.2.1, hO.2.1]
    refine ⟨hm1, ?_⟩
    unfold edgeOrVertexCrossing
    rw [hm1]
    simp

theorem crossingSignD_agrees (a b c d : Point) :
    crossingSignD ⟨a, b, some c, -sign a b c⟩ d
      = (crossingSign a b c d, ⟨a, b, some d, -sign a b d⟩) := by
  show (if -sign a b c = -sign a b d ∧ sign a b d ≠ 0
      then ((-1 : ℤ), (⟨a, b, some d, -sign a b d⟩ : CrosserState))
      else (crossingSign a b c d, ⟨a, b, some d, -sign a b d⟩))
    = (crossingSign a b c d, ⟨a, b, some d, -sign a b d⟩)
  by_cases h : -sign a b c = -sign a b d ∧ sign a b d ≠ 0
  · rw [if_pos h]
    have he : sign a b c = sign a b d := by linarith [h.1]
    rw [crossingSign_same_side he h.2]
  · rw [if_neg h]

theorem edgeOrVertexCrossingD_agrees (a b c d : Point) :
    edgeOrVertexCrossingD ⟨a, b, some c, -sign a b c⟩ d
      = (edgeOrVertexCrossing a b c d, ⟨a, b, some d, -sign a b d⟩) := by
  show ((if 0 < (crossingSignD ⟨a, b, some c, -sign a b c⟩ d).1 then true
      else if (crossingSignD ⟨a, b, some c, -sign a b c⟩ d).1 < 0 then false
      else vertexCrossing a b c d),
      (crossingSignD ⟨a, b, some c, -sign a b c⟩ d).2)
    = (edgeOrVertexCrossing a b c d, ⟨a, b, some d, -sign a b d⟩)
  rw [crossingSignD_agrees]
  rfl

theorem crossingSignCD_agrees (a b e c d : Point) :
    crossingSignCD ⟨a, b, some e, -sign a b e⟩ c d
      = (crossingSign a b c d, ⟨a, b, some d, -sign a b d⟩) := by
  unfold crossingSignCD
  by_cases h : e = c
  · subst h
    rw [if_pos rfl]
    exact crossingSignD_agrees a b e d
  · rw [if_neg (fun hh => h (Option.some.inj hh))]
    exact crossingSignD_agrees a b c d

theorem edgeOrVertexCrossingCD_agrees (a b e c d : Point) :
    edgeOrVertexCrossingCD ⟨a, b, some e, -sign a b e⟩ c d
      = (edgeOrVertexCrossing a b c d, ⟨a, b, some d, -sign a b d⟩) := by
  unfold edgeOrVertexCrossingCD
  by_cases h : e = c
  · subst h
    rw [if_pos rfl]
    exact edgeOrVertexCrossingD_agrees a b e d
  · rw [if_neg (fun hh => h (Option.some.inj hh))]
    exact edgeOrVertexCrossingD_agrees a b c d

theorem runCrossingSigns_eq (a b : Point) (ds : List Point) : ∀ c,
    runCrossingSigns ⟨a, b, some c, -sign a b c⟩ ds
      = chainCrossingSigns a b c ds := by
  induction ds with
  | nil => intro c; rfl
  | cons d ds ih =>
    intro c
    show (crossingSignD ⟨a, b, some c, -sign a b c⟩ d).1
        :: runCrossingSigns (crossingSignD ⟨a, b, some c, -sign a b c⟩ d).2 ds
      = crossingSign a b c d :: chainCrossingSigns a b d ds
    rw [crossingSignD_agrees]
    exact congrArg _ (ih d)

theorem runEdgeOrVertexCrossings_eq (a b : Point) (ds : List Point) : ∀ c,
    runEdgeOrVertexCrossings ⟨a, b, some c, -sign a b c⟩ ds
      = chainEdgeOrVertexCrossings a b c ds := by
  induction ds with
  | nil => intro c; rfl
  | cons d ds ih =>
    intro c
    show (edgeOrVertexCrossingD ⟨a, b, some c, -sign a b c⟩ d).1
        :: runEdgeOrVertexCrossings
            (edgeOrVertexCrossingD ⟨a, b, some c, -sign a b c⟩ d).2 ds
      = edgeOrVertexCrossing a b c d :: chainEdgeOrVertexCrossings a b d ds
    rw [edgeOrVertexCrossingD_agrees]
    exact congrArg _ (ih d)

theorem runCrossingSignPairs_eq (a b : Point) (ps : List (Point × Point)) :
    ∀ e, runCrossingSignPairs ⟨a, b, some e, -sign a b e⟩ ps
      = ps.map (fun p => crossingSign a b p.1 p.2) := by
  induction ps with
  | nil => intro e; rfl
  | cons p ps ih =>
    intro e
    show (crossingSignCD ⟨a, b, some e, -sign a b e⟩ p.1 p.2).1
        :: runCrossingSignPairs
            (crossingSignCD ⟨a, b, some e, -sign a b e⟩ p.1 p.2).2 ps
      = crossingSign a b p.1 p.2
        :: ps.map (fun p => crossingSign a b p.1 p.2)
    rw [crossingSignCD_agrees]
    exact congrArg _ (ih p.2)

theorem runEdgeOrVertexCrossingPairs_eq (a b : Point)
    (ps : List (Point × Point)) :
    ∀ e, runEdgeOrVertexCrossingPairs ⟨a, b, some e, -sign a b e⟩ ps
      = ps.map (fun p => edgeOrVertexCrossing a b p.1 p.2) := by
  induction ps with
  | nil => intro e; rfl
  | cons p ps ih =>
    intro e
    show (edgeOrVertexCrossingCD ⟨a, b, some e, -sign a b e⟩ p.1 p.2).1
        :: runEdgeOrVertexCrossingPairs
            (edgeOrVertexCrossingCD ⟨a, b, some e, -sign a b e⟩ p.1 p.2).2 ps
      = edgeOrVertexCrossing a b p.1 p.2
        :: ps.map (fun p => edgeOrVertexCrossing a b p.1 p.2)
    rw [edgeOrVertexCrossingCD_agrees]
    exact congrArg _ (ih p.2)

/-- C1: for all points a, b, c, d, if any endpoint of edge AB equals any
endpoint of edge CD, then CrossingSign(a,b,c,d) returns 0 (MaybeCross). -/
theorem claim1_shared_vertex_forces_zero (a b c d : Point)
    (h : a = c ∨ a = d ∨ b = c ∨ b = d) : crossingSign a b c d = 0 :=
  crossingSign_shared h

theorem claim1_shared_vertex_forces_zero_witness :
    ((⟨2, 3, 4⟩ : Point) = ⟨7, -2, 3⟩ ∨ (⟨2, 3, 4⟩ : Point) = ⟨2, 3, 4⟩
      ∨ (⟨-1, 2, 5⟩ : Point) = ⟨7, -2, 3⟩ ∨ (⟨-1, 2, 5⟩ : Point) = ⟨2, 3, 4⟩)
    ∧ crossingSign ⟨2, 3, 4⟩ ⟨-1, 2, 5⟩ ⟨7, -2, 3⟩ ⟨2, 3, 4⟩ = 0 :=
  ⟨by decide,
   claim1_shared_vertex_forces_zero ⟨2, 3, 4⟩ ⟨-1, 2, 5⟩ ⟨7, -2, 3⟩ ⟨2, 3, 4⟩
     (by decide)⟩

/-- C2 counterexample: the claim states CrossingSign(a,a,c,d) = -1 for all
points, but at a = (1,0,0), c = (0,1,0), d = a the degenerate edge touches
an endpoint of the other edge and the shared-endpoint rule forced by the
shipped test yields 0, not -1. -/
theorem claim2_degenerate_touching_cex :
    crossingSign ⟨1, 0, 0⟩ ⟨1, 0, 0⟩ ⟨0, 1, 0⟩ ⟨1, 0, 0⟩ ≠ -1
    ∧ crossingSign ⟨1, 0, 0⟩ ⟨1, 0, 0⟩ ⟨0, 1, 0⟩ ⟨1, 0, 0⟩ = 0 := by
  decide

/-- C2 (amended): whenever either edge is degenerate the classifier returns
DoesNotCross, provided the degenerate edge does not coincide with an
endpoint of the other edge; a degenerate edge touching an endpoint of the
other edge falls under the shared-endpoint rule and yields 0 instead. -/
theorem claim2_degenerate_edges_do_not_cross (a b c d : Point) :
    (a ≠ c → a ≠ d → crossingSign a a c d = -1)
    ∧ (c ≠ a → c ≠ b → crossingSign a b c c = -1)
    ∧ (a ≠ c → crossingSign a a c c = -1) := by
  refine ⟨fun h1 h2 => ?_, fun h1 h2 => ?_, fun h1 => ?_⟩
  · unfold crossingSign
    rw [if_neg (by tauto), if_pos (Or.inl rfl)]
  · have h1' : a ≠ c := fun e => h1 e.symm
    have h2' : b ≠ c := fun e => h2 e.symm
    unfold crossingSign
    rw [if_neg (by tauto), if_pos (Or.inr rfl)]
  · unfold crossingSign
    rw [if_neg (by tauto), if_pos (Or.inl rfl)]

theorem claim2_degenerate_edges_do_not_cross_witness :
    ((⟨1, 0, 0⟩ : Point) ≠ ⟨0, 1, 0⟩ ∧ (⟨1, 0, 0⟩ : Point) ≠ ⟨0, 0, 1⟩)
    ∧ crossingSign ⟨1, 0, 0⟩ ⟨1, 0, 0⟩ ⟨0, 1, 0⟩ ⟨0, 0, 1⟩ = -1 :=
  ⟨by decide,
   (claim2_degenerate_edges_do_not_cross ⟨1, 0, 0⟩ ⟨1, 0, 0⟩ ⟨0, 1, 0⟩
      ⟨0, 0, 1⟩).1 (by decide) (by decide)⟩

/-- C3: CrossingSign and EdgeOrVertexCrossing are invariant under the four
reorderings of the endpoints within each edge (proved for all points, which
includes all valid approximately-unit-length points). -/
theorem claim3_endpoint_order_invariance (a b c d : Point) :
    (crossingSign b a c d = crossingSign a b c d
      ∧ crossingSign a b d c = crossingSign a b c d
      ∧ crossingSign b a d c = crossingSign a b c d)
    ∧ (edgeOrVertexCrossing b a c d = edgeOrVertexCrossing a b c d
      ∧ edgeOrVertexCrossing a b d c = edgeOrVertexCrossing a b c d
      ∧ edgeOrVertexCrossing b a d c = edgeOrVertexCrossing a b c d) := by
  refine ⟨⟨crossingSign_swap_ab a b c d, crossingSign_swap_cd a b c d, ?_⟩,
    ev_swap_ab a b c d, ev_swap_cd a b c d, ?_⟩
  · rw [crossingSign_swap_ab a b d c, crossingSign_swap_cd a b c d]
  · rw [ev_swap_ab a b d c, ev_swap_cd a b c d]

/-- C4 counterexample: at the identical edge pair a = c = (1,0,0),
b = d = (0,1,0) the claimed law EV(c,d,a,b) = EV(a,b,c,d) XOR
(Cross(a,b,c,d) = 0) fails: both EV values are true while the crossing
sign is 0, so the XOR demands they differ. -/
theorem claim4_identical_edges_cex :
    crossingSign ⟨1, 0, 0⟩ ⟨0, 1, 0⟩ ⟨1, 0, 0⟩ ⟨0, 1, 0⟩ = 0
    ∧ ¬ (edgeOrVertexCrossing ⟨1, 0, 0⟩ ⟨0, 1, 0⟩ ⟨1, 0, 0⟩ ⟨0, 1, 0⟩
        = xor (edgeOrVertexCrossing ⟨1, 0, 0⟩ ⟨0, 1, 0⟩ ⟨1, 0, 0⟩ ⟨0, 1, 0⟩)
            (decide (crossingSign ⟨1, 0, 0⟩ ⟨0, 1, 0⟩ ⟨1, 0, 0⟩ ⟨0, 1, 0⟩
              = 0))) := by
  decide

/-- C4 (amended): swapping the two edges always preserves CrossingSign; and
EV(c,d,a,b) = EV(a,b,c,d) XOR (Cross(a,b,c,d) = 0) holds provided that when
the edges share a vertex, neither edge is degenerate and the edges are
neither identical nor reversed-identical. -/
theorem claim4_edge_swap_law (a b c d : Point)
    (h : (a = c ∨ a = d ∨ b = c ∨ b = d)
      → a ≠ b ∧ c ≠ d ∧ ¬ (a = c ∧ b = d) ∧ ¬ (a = d ∧ b = c)) :
    crossingSign c d a b = crossingSign a b c d
    ∧ edgeOrVertexCrossing c d a b
      = xor (edgeOrVertexCrossing a b c d)
          (decide (crossingSign a b c d = 0)) := by
  refine ⟨crossingSign_swap_edges a b c d, ?_⟩
  by_cases hsh : a = c ∨ a = d ∨ b = c ∨ b = d
  · obtain ⟨hab, hcd, hni, hnr⟩ := h hsh
    have h0 : crossingSign a b c d = 0 := crossingSign_shared hsh
    have h0' : crossingSign c d a b = 0 := by
      rw [crossingSign_swap_edges, h0]
    unfold edgeOrVertexCrossing
    rw [h0, h0', vc_complement hab hcd hsh hni hnr]
    simp
  · have hnz : crossingSign a b c d ≠ 0 := crossingSign_not_shared_ne_zero hsh
    unfold edgeOrVertexCrossing
    rw [crossingSign_swap_edges a b c d]
    rcases crossingSign_cases a b c d with h1 | h1 | h1
    · rw [h1]; simp
    · exact absurd h1 hnz
    · rw [h1]; simp

theorem claim4_edge_swap_law_witness :
    crossingSign ⟨7, -2, 3⟩ ⟨2, 3, 4⟩ ⟨2, 3, 4⟩ ⟨-1, 2, 5⟩
      = crossingSign ⟨2, 3, 4⟩ ⟨-1, 2, 5⟩ ⟨7, -2, 3⟩ ⟨2, 3, 4⟩
    ∧ edgeOrVertexCrossing ⟨7, -2, 3⟩ ⟨2, 3, 4⟩ ⟨2, 3, 4⟩ ⟨-1, 2, 5⟩
      = xor (edgeOrVertexCrossing ⟨2, 3, 4⟩ ⟨-1, 2, 5⟩ ⟨7, -2, 3⟩ ⟨2, 3, 4⟩)
          (decide (crossingSign ⟨2, 3, 4⟩ ⟨-1, 2, 5⟩ ⟨7, -2, 3⟩ ⟨2, 3, 4⟩
            = 0)) :=
  claim4_edge_swap_law ⟨2, 3, 4⟩ ⟨-1, 2, 5⟩ ⟨7, -2, 3⟩ ⟨2, 3, 4⟩ (by decide)

/-- C5: every sequence of query edges tested via the incremental crosser
(one-point and two-point call forms, for both CrossingSign and
EdgeOrVertexCrossing; the two crosser flavors share these semantics)
against a fixed reference edge AB produces exactly the free-function
results on the same four points. -/
theorem claim5_incremental_agrees_free (a b c : Point) (ds : List Point)
    (ps : List (Point × Point)) :
    runCrossingSigns (initCrosser a b c) ds = chainCrossingSigns a b c ds
    ∧ runEdgeOrVertexCrossings (initCrosser a b c) ds
        = chainEdgeOrVertexCrossings a b c ds
    ∧ runCrossingSignPairs (initCrosser a b c) ps
        = ps.map (fun p => crossingSign a b p.1 p.2)
    ∧ runEdgeOrVertexCrossingPairs (initCrosser a b c) ps
        = ps.map (fun p => edgeOrVertexCrossing a b p.1 p.2) :=
  ⟨runCrossingSigns_eq a b ds c, runEdgeOrVertexCrossings_eq a b ds c,
   runCrossingSignPairs_eq a b ps c, runEdgeOrVertexCrossingPairs_eq a b ps c⟩

/-- C6: the Sign kernel is a pure function (it is a Lean function of its
three arguments) with values in {-1, 0, +1}; swapping any two arguments
flips the sign, and cyclic rotation never changes it, including on exactly
degenerate inputs resolved by the symbolic perturbation. -/
theorem claim6_sign_kernel_properties (a b c : Point) :
    (sign a b c = -1 ∨ sign a b c = 0 ∨ sign a b c = 1)
    ∧ sign b a c = -sign a b c
    ∧ sign a c b = -sign a b c
    ∧ sign c b a = -sign a b c
    ∧ sign b c a = sign a b c
    ∧ sign c a b = sign a b c :=
  ⟨sign_cases a b c, sign_swap12 a b c, sign_swap23 a b c, sign_swap13 a b c,
   sign_cyc1 a b c, sign_cyc2 a b c⟩

/-- C7: an antipodal pseudo-crossing is classified DoesNotCross: whenever
the antipodal image of edge CD properly crosses AB (so the extended great
circles meet only at points antipodal to the finite arcs; stated for edges
in general position, with no degenerate Sign evaluations), CrossingSign of
the original pair is -1; and at the concrete antipodal edges of the test,
A=(1,2,1), B=(1,-3,0.5), C=(-1,0.5,3), D=(-0.1,-0.5,-3) (scaled here to
integer representatives (1,2,1), (2,-6,1), (-2,1,6), (-1,-5,-30)), the
result is -1
and EdgeOrVertexCrossing is false. -/
theorem claim7_antipodal_pseudo_crossing :
    (∀ a b c d : Point, a ≠ b → c ≠ d →
      det a b c ≠ 0 → det a b d ≠ 0 → det c d a ≠ 0 → det c d b ≠ 0 →
      ¬ (a = neg c ∨ a = neg d ∨ b = neg c ∨ b = neg d) →
      crossingSign a b (neg c) (neg d) = 1 →
      crossingSign a b c d = -1 ∧ edgeOrVertexCrossing a b c d = false)
    ∧ crossingSign ⟨1, 2, 1⟩ ⟨2, -6, 1⟩ ⟨-2, 1, 6⟩ ⟨-1, -5, -30⟩ = -1
    ∧ edgeOrVertexCrossing ⟨1, 2, 1⟩ ⟨2, -6, 1⟩ ⟨-2, 1, 6⟩
        ⟨-1, -5, -30⟩ = false := by
  refine ⟨fun a b c d h1 h2 h3 h4 h5 h6 h7 h8 =>
    crossingSign_antipodal h1 h2 h3 h4 h5 h6 h7 h8, by decide, by decide⟩

theorem claim7_antipodal_pseudo_crossing_witness :
    crossingSign ⟨1, 2, 1⟩ ⟨2, -6, 1⟩ (neg ⟨-2, 1, 6⟩)
        (neg ⟨-1, -5, -30⟩) = 1
    ∧ crossingSign ⟨1, 2, 1⟩ ⟨2, -6, 1⟩ ⟨-2, 1, 6⟩ ⟨-1, -5, -30⟩
        = -1
    ∧ edgeOrVertexCrossing ⟨1, 2, 1⟩ ⟨2, -6, 1⟩ ⟨-2, 1, 6⟩
        ⟨-1, -5, -30⟩ = false :=
  ⟨by decide,
   (claim7_antipodal_pseudo_crossing.1 ⟨1, 2, 1⟩ ⟨2, -6, 1⟩ ⟨-2, 1, 6⟩
      ⟨-1, -5, -30⟩ (by decide) (by decide) (by decide) (by decide)
      (by decide) (by decide) (by decide) (by decide)).1,
   (claim7_antipodal_pseudo_crossing.1 ⟨1, 2, 1⟩ ⟨2, -6, 1⟩ ⟨-2, 1, 6⟩
      ⟨-1, -5, -30⟩ (by decide) (by decide) (by decide) (by decide)
      (by decide) (by decide) (by decide) (by decide)).2⟩

/-- C8: testing a non-degenerate edge against itself yields
CrossingSign(a,b,a,b) = 0 and EdgeOrVertexCrossing(a,b,a,b) = true. -/
theorem claim8_self_identity (a b : Point) (h : a ≠ b) :
    crossingSign a b a b = 0 ∧ edgeOrVertexCrossing a b a b = true := by
  have h0 : crossingSign a b a b = 0 := crossingSign_shared (Or.inl rfl)
  refine ⟨h0, ?_⟩
  unfold edgeOrVertexCrossing
  rw [h0, if_neg (lt_irrefl 0), if_neg (lt_irrefl 0)]
  exact vc_self h

theorem claim8_self_identity_witness :
    ((⟨1, 0, 0⟩ : Point) ≠ ⟨0, 1, 0⟩)
    ∧ crossingSign ⟨1, 0, 0⟩ ⟨0, 1, 0⟩ ⟨1, 0, 0⟩ ⟨0, 1, 0⟩ = 0
    ∧ edgeOrVertexCrossing ⟨1, 0, 0⟩ ⟨0, 1, 0⟩ ⟨1, 0, 0⟩ ⟨0, 1, 0⟩ = true :=
  ⟨by decide,
   (claim8_self_identity ⟨1, 0, 0⟩ ⟨0, 1, 0⟩ (by decide)).1,
   (claim8_self_identity ⟨1, 0, 0⟩ ⟨0, 1, 0⟩ (by decide)).2⟩

/-- C9 counterexample: the claim states that RestartAt sets the crosser
origin A to the new point; at the concrete state Init((7,-2,3),(2,3,4))
followed by RestartAt((1,0,0)), the origin is still (7,-2,3), not
(1,0,0) — RestartAt records the pending query-chain point instead, as the
shipped test requires. -/
theorem claim9_restart_origin_cex :
    (restartAt (initEdge ⟨7, -2, 3⟩ ⟨2, 3, 4⟩) ⟨1, 0, 0⟩).a ≠ ⟨1, 0, 0⟩
    ∧ (restartAt (initEdge ⟨7, -2, 3⟩ ⟨2, 3, 4⟩) ⟨1, 0, 0⟩).a
        = ⟨7, -2, 3⟩ := by
  decide

/-- C9 (amended): after Init(c,d) then RestartAt(a), testing against b and
then against a reproduces the direct free-function CrossingSign(a,b,c,d)
result; RestartAt keeps both reference-edge endpoints fixed, records the
new point as the pending query-chain vertex, and resets the cached sign to
that of the new point, so subsequent results are unaffected by the
previous chain. -/
theorem claim9_restart_correctness (a b c d : Point) :
    (crossingSignD (restartAt (initEdge c d) a) b).1 = crossingSign a b c d
    ∧ (crossingSignD (crossingSignD (restartAt (initEdge c d) a) b).2 a).1
        = crossingSign a b c d
    ∧ (∀ s p, (restartAt s p).a = s.a ∧ (restartAt s p).b = s.b
        ∧ (restartAt s p).c = some p
        ∧ (restartAt s p).acb = -sign s.a s.b p) := by
  refine ⟨?_, ?_, fun s p => ⟨rfl, rfl, rfl, rfl⟩⟩
  · rw [show restartAt (initEdge c d) a = ⟨c, d, some a, -sign c d a⟩
      from rfl, crossingSignD_agrees c d a b]
    show crossingSign c d a b = crossingSign a b c d
    exact crossingSign_swap_edges a b c d
  · rw [show restartAt (initEdge c d) a = ⟨c, d, some a, -sign c d a⟩
      from rfl, crossingSignD_agrees c d a b]
    show (crossingSignD ⟨c, d, some b, -sign c d b⟩ a).1
      = crossingSign a b c d
    rw [crossingSignD_agrees c d b a]
    show crossingSign c d b a = crossingSign a b c d
    rw [crossingSign_swap_cd c d a b, crossingSign_swap_edges a b c d]

/-- C10: the three-point constructor pre-seeds the pending query point, so
it equals Init(a,b) followed by RestartAt(c), and the first one-point
CrossingSign(d) call on it equals the free-function CrossingSign(a,b,c,d). -/
theorem claim10_three_point_constructor (a b c d : Point) :
    initCrosser a b c = restartAt (initEdge a b) c
    ∧ (crossingSignD (initCrosser a b c) d).1 = crossingSign a b c d := by
  refine ⟨rfl, ?_⟩
  rw [show initCrosser a b c = ⟨a, b, some c, -sign a b c⟩ from rfl,
    crossingSignD_agrees a b c d]

end S2
